import Mathlib

/-!
# go-bloomd: the client and filter facades over the line protocol

A shallow embedding of `consts.go`, `filter.go` and `client.go`.

* A Go `string` is a finite sequence of bytes (`GoString`).
* A Go `error` result is an `Option GoError` (`none` is `nil`).
* The connection a `*Connection` designates is threaded explicitly: every
  operation takes the state of the connection and returns the state it leaves.
* A run-time panic is an explicit outcome (`Outcome.panic`).
* The methods of `Filter` and `Client` are modelled for a receiver whose `Conn`
  designates a live connection; the pointer itself is kept as an address.
-/

set_option autoImplicit false
set_option maxRecDepth 1000000

namespace Bloomd

/-! ## Go strings -/

/-- One byte of a Go string. -/
abbrev Byte := Fin 256

/-- Go `string`: an immutable sequence of bytes. -/
abbrev GoString := List Byte

/-- An ASCII string literal as a Go string (one byte per character). -/
def lit (s : String) : GoString := s.toList.map (fun c => Fin.ofNat c.toNat)

/-- The space character, the separator of the wire protocol. -/
def sp : Byte := 32

/-! ## consts.go -/

def FilterNotFound : GoString := lit "Filter does not exist"
def RespDone : GoString := lit "Done"
def RespExists : GoString := lit "Exists"
def FilterYes : GoString := lit "Yes"
def FilterNo : GoString := lit "No"

def BlockStart : GoString := lit "START"
def BlockEnd : GoString := lit "END"
def Done : GoString := lit "DONE"

def ListCmd : GoString := lit "list"
def InfoCmd : GoString := lit "info"
def FlushCmd : GoString := lit "flush"
def CreateCmd : GoString := lit "create"

def FilterSetCmd : GoString := lit "set"
def FilterBulkCmd : GoString := lit "bulk"
def FilterCheckCmd : GoString := lit "check"
def FilterMultiCmd : GoString := lit "multi"
def FilterDropCmd : GoString := lit "drop"
def FilterCloseCmd : GoString := lit "close"
def FilterClearCmd : GoString := lit "clear"

/-! ## The parts of the Go standard library the facades call -/

/-- Go `strings.HasPrefix`. -/
def HasPrefix (s pre : GoString) : Bool := List.isPrefixOf pre s

/-- Go `strings.Index` for a one-byte separator: the first position of `sep`. -/
def Index : GoString → Byte → Option Nat
  | [], _ => none
  | b :: rest, sep => if b = sep then some 0 else (Index rest sep).map (· + 1)

/-- Go `strings.Count` for a one-byte separator. -/
def Count (s : GoString) (sep : Byte) : Nat := List.count sep s

/-- The loop of Go `strings.genSplit`: at most `i` cuts at the separator, the
rest of the string is the last element. -/
def genSplit : Nat → GoString → Byte → List GoString
  | 0, s, _ => [s]
  | i + 1, s, sep =>
    match Index s sep with
    | none => [s]
    | some m => s.take m :: genSplit i (s.drop (m + 1)) sep

/-- Go `strings.SplitN` for a one-byte separator: `n = 0` gives no element,
`n < 0` all the pieces, `n > 0` at most `n` pieces. -/
def SplitN (s : GoString) (sep : Byte) (n : Int) : List GoString :=
  if n = 0 then []
  else if n < 0 then genSplit (Count s sep) s sep
  else genSplit (n.toNat - 1) s sep

/-- Go `strings.Split`, which is `SplitN` with `n = -1`. -/
def Split (s : GoString) (sep : Byte) : List GoString := SplitN s sep (-1)

/-- The byte of a decimal digit character. -/
def charByte (c : Char) : Byte := Fin.ofNat c.toNat

/-- Go `strconv.Itoa`: the decimal rendering of an `int`. -/
def Itoa : Int → GoString
  | Int.ofNat n => (Nat.toDigits 10 n).map charByte
  | Int.negSucc n => lit "-" ++ (Nat.toDigits 10 (n + 1)).map charByte

/-- Go `float64`, kept as its IEEE-754 binary64 bit pattern
(`math.Float64bits`), read modulo `2^64`. -/
structure Float64 where
  bits : Nat
deriving DecidableEq, Repr

/-- The Go comparison `x > 0` on a `float64`: the sign bit is clear, the value
is not zero and it is not a NaN. -/
def Float64.gtZero (x : Float64) : Bool :=
  let b := x.bits % 2 ^ 64
  let sign := b / 2 ^ 63
  let expo := b / 2 ^ 52 % 2048
  let frac := b % 2 ^ 52
  decide (sign = 0) && decide (b ≠ 0) && !(decide (expo = 2047) && decide (frac ≠ 0))

/-! ### crypto/sha1 -/

/-- Rotate a 32-bit word left. -/
def rotl32 (x n : Nat) : Nat := ((x <<< n) ||| (x >>> (32 - n))) % 2 ^ 32

/-- Big-endian value of a list of bytes. -/
def be32 (bs : List Nat) : Nat := bs.foldl (fun acc b => acc * 256 + b) 0

/-- Big-endian bytes of `x`, `width` of them. -/
def toBE (width : Nat) (x : Nat) : List Nat :=
  (List.range width).map (fun i => (x >>> (8 * (width - 1 - i))) % 256)

/-- SHA-1 message padding: a `0x80` byte, zeros, and the bit length on 8 bytes. -/
def sha1Pad (msg : List Nat) : List Nat :=
  let l := msg.length
  let k := (119 - l % 64) % 64
  msg ++ [0x80] ++ List.replicate k 0 ++ toBE 8 (8 * l)

/-- Cut a list in pieces of `n` elements. -/
def chunks (n : Nat) : Nat → List Nat → List (List Nat)
  | 0, _ => []
  | fuel + 1, xs => if xs = [] then [] else xs.take n :: chunks n fuel (xs.drop n)

/-- The 80-word message schedule of one 64-byte block. -/
def schedule (blk : List Nat) : Array Nat :=
  let w0 : Array Nat := ((chunks 4 16 blk).map be32).toArray
  (List.range 64).foldl (fun w i =>
    let t := i + 16
    w.push (rotl32 (w[t-3]! ^^^ w[t-8]! ^^^ w[t-14]! ^^^ w[t-16]!) 1)) w0

/-- The five chaining words of SHA-1. -/
structure Sha1State where
  a : Nat
  b : Nat
  c : Nat
  d : Nat
  e : Nat
deriving DecidableEq, Repr

/-- One of the 80 rounds of the SHA-1 compression function. -/
def sha1Round (w : Array Nat) (s : Sha1State) (t : Nat) : Sha1State :=
  let fk : Nat × Nat :=
    if t < 20 then ((s.b &&& s.c) ||| ((s.b ^^^ 0xFFFFFFFF) &&& s.d), 0x5A827999)
    else if t < 40 then (s.b ^^^ s.c ^^^ s.d, 0x6ED9EBA1)
    else if t < 60 then ((s.b &&& s.c) ||| (s.b &&& s.d) ||| (s.c &&& s.d), 0x8F1BBCDC)
    else (s.b ^^^ s.c ^^^ s.d, 0xCA62C1D6)
  let tmp := (rotl32 s.a 5 + fk.1 + s.e + fk.2 + w[t]!) % 2 ^ 32
  ⟨tmp, s.a, rotl32 s.b 30, s.c, s.d⟩

/-- The SHA-1 compression function on one block. -/
def sha1Block (h : Sha1State) (blk : List Nat) : Sha1State :=
  let w := schedule blk
  let s := (List.range 80).foldl (sha1Round w) h
  ⟨(h.a + s.a) % 2 ^ 32, (h.b + s.b) % 2 ^ 32, (h.c + s.c) % 2 ^ 32,
    (h.d + s.d) % 2 ^ 32, (h.e + s.e) % 2 ^ 32⟩

/-- The 20-byte SHA-1 digest of a message. -/
def sha1 (msg : GoString) : GoString :=
  let p := sha1Pad (msg.map Fin.val)
  let s := (chunks 64 p.length p).foldl sha1Block
    ⟨0x67452301, 0xEFCDAB89, 0x98BADCFE, 0x10325476, 0xC3D2E1F0⟩
  (toBE 4 s.a ++ toBE 4 s.b ++ toBE 4 s.c ++ toBE 4 s.d ++ toBE 4 s.e).map Fin.ofNat

/-- Go `hash.Hash` as returned by `sha1.New()`: the bytes written so far. -/
structure Sha1Hash where
  written : GoString
deriving DecidableEq, Repr

/-- Go `sha1.New()`: a hash into which nothing has been written. -/
def sha1New : Sha1Hash := ⟨[]⟩

/-- Go `hash.Hash.Sum(b)`: appends the digest of what was WRITTEN to `b`; the
argument `b` is not hashed. -/
def Sha1Hash.Sum (h : Sha1Hash) (b : GoString) : GoString := b ++ sha1 h.written

/-- One lowercase hexadecimal digit. -/
def hexDigit (n : Nat) : Byte := if n < 10 then Fin.ofNat (48 + n) else Fin.ofNat (87 + n)

/-- Go `fmt.Sprintf("%x", s)` on a byte slice: two lowercase hexadecimal
digits per byte. -/
def sprintfHex : GoString → GoString
  | [] => []
  | b :: rest => hexDigit (b.val / 16) :: hexDigit (b.val % 16) :: sprintfHex rest

/-! ## Errors -/

/-- Modelled from the spec: `connection.go` is missing. An error of the
connection layer (dial, write, read, timeout, premature end of a block),
carrying its text. -/
structure ConnError where
  text : GoString
deriving DecidableEq, Repr

/-- Modelled from the spec: `errors.go` is missing. The non-nil `error` values
the facades return: `errInvalidCapacity` (a probability without a capacity),
`errInvalidResponse(resp)` (wraps the exact server text), a `BloomdError` with
its `ErrorString`, and an error of the connection returned verbatim. -/
inductive GoError where
  | errInvalidCapacity
  | errInvalidResponse (resp : GoString)
  | BloomdError (ErrorString : GoString)
  | conn (e : ConnError)
deriving DecidableEq, Repr

/-- The outcome of a call that may panic at run time. -/
inductive Outcome (α : Type) where
  | ret (a : α)
  | panic (msg : GoString)
deriving DecidableEq, Repr

/-- Whether the call panicked. -/
def Outcome.isPanic {α : Type} : Outcome α → Bool
  | Outcome.ret _ => false
  | Outcome.panic _ => true

/-- The value the call returned, if it returned. -/
def Outcome.value? {α : Type} : Outcome α → Option α
  | Outcome.ret a => some a
  | Outcome.panic _ => none

/-! ## The connection -/

/-- Modelled from the spec: `connection.go` is missing. The state of one
connection: the commands handed to `Send` so far (oldest first), the error
every write fails with (if any), and the outcomes of the coming line reads, in
order, line terminators stripped. -/
structure Connection where
  sent : List GoString
  writeErr : Option ConnError
  incoming : List (Except ConnError GoString)

/-- Modelled from the spec: `send(command)` of the missing `connection.go`:
writes the command, does not wait for a response. -/
def Connection.Send (c : Connection) (cmd : GoString) : Option ConnError × Connection :=
  (c.writeErr, { c with sent := c.sent ++ [cmd] })

/-- Modelled from the spec: `readLine()` of the missing `connection.go`: the
next line, or an error on a read failure or when the peer has closed. -/
def Connection.Read (c : Connection) : Except ConnError GoString × Connection :=
  match c.incoming with
  | [] => (Except.error ⟨lit "EOF"⟩, c)
  | r :: rest => (r, { c with incoming := rest })

/-- Modelled from the spec: `sendAndReceive(command)` of the missing
`connection.go`: `send` followed by `readLine`. -/
def Connection.SendAndReceive (c : Connection) (cmd : GoString) :
    Except ConnError GoString × Connection :=
  match c.Send cmd with
  | (some e, c1) => (Except.error e, c1)
  | (none, c1) => c1.Read

/-- Modelled from the spec: the second phase of `readBlock()`: accumulate
lines until the `END` sentinel; the stream ending first is an error. -/
def readBlockBody : List (Except ConnError GoString) → List GoString →
    Except ConnError (List GoString) × List (Except ConnError GoString)
  | [], _ => (Except.error ⟨lit "block not terminated"⟩, [])
  | Except.error e :: rest, _ => (Except.error e, rest)
  | Except.ok l :: rest, acc =>
    if l = BlockEnd then (Except.ok acc, rest) else readBlockBody rest (acc ++ [l])

/-- Modelled from the spec: the first phase of `readBlock()`: read lines until
the `START` sentinel. -/
def readBlockStart : List (Except ConnError GoString) →
    Except ConnError (List GoString) × List (Except ConnError GoString)
  | [] => (Except.error ⟨lit "block not terminated"⟩, [])
  | Except.error e :: rest => (Except.error e, rest)
  | Except.ok l :: rest =>
    if l = BlockStart then readBlockBody rest [] else readBlockStart rest

/-- Modelled from the spec: `readBlock()` of the missing `connection.go`: the
lines between the `START` and `END` sentinels, sentinels excluded. -/
def Connection.ReadBlock (c : Connection) : Except ConnError (List GoString) × Connection :=
  ((readBlockStart c.incoming).1, { c with incoming := (readBlockStart c.incoming).2 })

/-! ## filter.go -/

/-- A `*Connection`: `none` is the nil pointer, `some a` the connection at
address `a`. -/
abbrev ConnPtr := Option Nat

/-- The `Filter` struct. -/
structure Filter where
  Name : GoString
  Conn : ConnPtr
  HashKeys : Bool
  Capacity : Int
  Prob : Float64
  InMemory : Bool
deriving DecidableEq, Repr

/-- `Filter.getKey`: the key sent to the server. -/
def Filter.getKey (f : Filter) (key : GoString) : GoString :=
  if f.HashKeys then
    let h := sha1New
    let s := h.Sum key
    sprintfHex s
  else key

/-- `Filter.Set`; `conn` is the state of the connection `f.Conn` designates. -/
def Filter.Set (f : Filter) (key : GoString) (conn : Connection) :
    (Bool × Option GoError) × Connection :=
  let cmd := FilterSetCmd ++ lit " " ++ f.Name ++ lit " " ++ f.getKey key
  match conn.SendAndReceive cmd with
  | (Except.error err, c1) => ((false, some (GoError.conn err)), c1)
  | (Except.ok resp, c1) =>
    if resp = FilterYes ∨ resp = FilterNo then ((decide (resp = FilterYes), none), c1)
    else ((false, some (GoError.errInvalidResponse resp)), c1)

/-- The command `Filter.groupCommand` builds: the kind, the name and the wire
token of every key, each appended after one space. -/
def groupCmd (f : Filter) (kind : GoString) (keys : List GoString) : GoString :=
  keys.foldl (fun cmd key => cmd ++ lit " " ++ f.getKey key) (kind ++ lit " " ++ f.Name)

/-- `Filter.groupCommand`; `conn` is the state of the connection `f.Conn`
designates. -/
def Filter.groupCommand (f : Filter) (kind : GoString) (keys : List GoString)
    (conn : Connection) : (List Bool × Option GoError) × Connection :=
  let cmd := groupCmd f kind keys
  match conn.SendAndReceive cmd with
  | (Except.error e, c1) => (([], some (GoError.BloomdError e.text)), c1)
  | (Except.ok resp, c1) =>
    if HasPrefix resp FilterYes || HasPrefix resp FilterNo then
      (((Split resp sp).foldl (fun rs res => rs ++ [decide (res = FilterYes)]) [], none), c1)
    else (([], none), c1)

/-- `Filter.singleCommand`; `conn` is the state of the connection `f.Conn`
designates. -/
def Filter.singleCommand (f : Filter) (kind : GoString) (key : GoString)
    (conn : Connection) : (Bool × Option GoError) × Connection :=
  let cmd := kind ++ lit " " ++ f.Name ++ lit " " ++ f.getKey key
  match conn.SendAndReceive cmd with
  | (Except.error err, c1) => ((false, some (GoError.BloomdError err.text)), c1)
  | (Except.ok resp, c1) =>
    if HasPrefix resp FilterYes || HasPrefix resp FilterNo then
      ((decide (resp = FilterYes), none), c1)
    else ((false, none), c1)

/-- `Filter.Bulk`. -/
def Filter.Bulk (f : Filter) (keys : List GoString) (conn : Connection) :
    (List Bool × Option GoError) × Connection :=
  f.groupCommand FilterBulkCmd keys conn

/-- `Filter.Check`. -/
def Filter.Check (f : Filter) (key : GoString) (conn : Connection) :
    (Bool × Option GoError) × Connection :=
  f.singleCommand FilterCheckCmd key conn

/-- `Filter.Multi`. -/
def Filter.Multi (f : Filter) (keys : List GoString) (conn : Connection) :
    (List Bool × Option GoError) × Connection :=
  f.groupCommand FilterMultiCmd keys conn

/-- `Filter.sendCommand`. -/
def Filter.sendCommand (f : Filter) (cmd : GoString) (conn : Connection) :
    Option GoError × Connection :=
  let sendCmd := cmd ++ lit " " ++ f.Name
  match conn.SendAndReceive sendCmd with
  | (Except.error err, c1) => (some (GoError.conn err), c1)
  | (Except.ok resp, c1) =>
    if resp ≠ RespDone then (some (GoError.errInvalidResponse resp), c1) else (none, c1)

/-- `Filter.Drop`. -/
def Filter.Drop (f : Filter) (conn : Connection) : Option GoError × Connection :=
  f.sendCommand FilterDropCmd conn

/-- `Filter.Close`. -/
def Filter.Close (f : Filter) (conn : Connection) : Option GoError × Connection :=
  f.sendCommand FilterCloseCmd conn

/-- `Filter.Clear`. -/
def Filter.Clear (f : Filter) (conn : Connection) : Option GoError × Connection :=
  f.sendCommand FilterClearCmd conn

/-- `Filter.Flush`. -/
def Filter.Flush (f : Filter) (conn : Connection) : Option GoError × Connection :=
  f.sendCommand FlushCmd conn

/-! ## client.go -/

/-- The `Client` struct. -/
structure Client where
  Server : GoString
  Timeout : Int
  Conn : ConnPtr
  ServerInfo : GoString
  InfoTime : Int
  HashKeys : Bool
deriving DecidableEq, Repr

/-- Go `map[string]string`, as an association list with one entry per key. -/
abbrev GoMap := List (GoString × GoString)

/-- The map read `m[k]`, with its presence flag. -/
def GoMap.get (m : GoMap) (k : GoString) : Option GoString := List.lookup k m

/-- The map write `m[k] = v`: a previous entry for `k` is replaced. -/
def GoMap.set (m : GoMap) (k v : GoString) : GoMap :=
  (k, v) :: m.filter (fun p => decide (p.1 ≠ k))

/-- The command `Client.CreateFilter` builds (lines 41 to 50); `FormatFloat`
stands for Go `strconv.FormatFloat(x, 'f', -1, 64)`. -/
def createCmd (FormatFloat : Float64 → GoString) (f : Filter) : GoString :=
  let cmd := CreateCmd ++ lit " " ++ f.Name
  let cmd := if f.Capacity > 0 then cmd ++ lit " capacity=" ++ Itoa f.Capacity else cmd
  let cmd := if f.Prob.gtZero then cmd ++ lit " prob=" ++ FormatFloat f.Prob else cmd
  let cmd := if f.InMemory then cmd ++ lit " in_memory=1" else cmd
  cmd

/-- `Client.CreateFilter`: returns the error, the filter as the call leaves it
and the connection as the call leaves it; `conn` is the state of the
connection `c.Conn` designates. -/
def Client.CreateFilter (FormatFloat : Float64 → GoString) (c : Client) (f : Filter)
    (conn : Connection) : Option GoError × Filter × Connection :=
  if f.Prob.gtZero && decide (f.Capacity < 1) then (some GoError.errInvalidCapacity, f, conn)
  else
    let cmd := createCmd FormatFloat f
    match conn.Send cmd with
    | (some err, c1) => (some (GoError.conn err), f, c1)
    | (none, c1) =>
      match c1.Read with
      | (Except.error err, c2) => (some (GoError.conn err), f, c2)
      | (Except.ok resp, c2) =>
        if resp ≠ RespDone ∧ resp ≠ RespExists then
          (some (GoError.errInvalidResponse resp), f, c2)
        else (none, { f with Conn := c.Conn, HashKeys := c.HashKeys }, c2)

/-- One iteration of the loop of `Client.ListFilters`: `none` when `split[1]`
is out of range. -/
def listStep (responses : GoMap) (line : GoString) : Option GoMap :=
  let split := SplitN line sp 2
  match split[0]?, split[1]? with
  | some k, some v => some (responses.set k v)
  | _, _ => none

/-- `Client.ListFilters`; `conn` is the state of the connection `c.Conn`
designates. A nil map and an empty map are both the empty list. -/
def Client.ListFilters (_c : Client) (conn : Connection) :
    Outcome ((GoMap × Option GoError) × Connection) :=
  match conn.Send ListCmd with
  | (some err, c1) => Outcome.ret (([], some (GoError.conn err)), c1)
  | (none, c1) =>
    match c1.ReadBlock with
    | (Except.error err, c2) => Outcome.ret (([], some (GoError.conn err)), c2)
    | (Except.ok resp, c2) =>
      match resp.foldlM listStep ([] : GoMap) with
      | none => Outcome.panic (lit "index out of range [1] with length 1")
      | some responses => Outcome.ret ((responses, none), c2)

/-- `Client.Flush`; `conn` is the state of the connection `c.Conn`
designates. After a successful read the variable `err` holds nil, and that is
what the mismatch branch returns. -/
def Client.Flush (_c : Client) (conn : Connection) : Option GoError × Connection :=
  match conn.Send FlushCmd with
  | (some err, c1) => (some (GoError.conn err), c1)
  | (none, c1) =>
    match c1.Read with
    | (Except.error err, c2) => (some (GoError.conn err), c2)
    | (Except.ok resp, c2) =>
      let err : Option GoError := none
      if resp ≠ Done then (err, c2) else (none, c2)

/-- The error kinds of Go `strconv`: `ErrSyntax` and `ErrRange`. -/
inductive NumError where
  | ErrSyntax
  | ErrRange
deriving DecidableEq, Repr

/-- The digit loop of Go `strconv.ParseUint(s, 10, 64)`: a byte that is not a
decimal digit is a syntax error, a value above `2^64 - 1` a range error. -/
def parseUintLoop : GoString → Nat → Except NumError Nat
  | [], n => Except.ok n
  | c :: rest, n =>
    if 48 ≤ c.val ∧ c.val ≤ 57 then
      if n ≥ (2 ^ 64 - 1) / 10 + 1 then Except.error NumError.ErrRange
      else if n * 10 + (c.val - 48) > 2 ^ 64 - 1 then Except.error NumError.ErrRange
      else parseUintLoop rest (n * 10 + (c.val - 48))
    else Except.error NumError.ErrSyntax

/-- Go `strconv.ParseUint(s, 10, 64)`. -/
def ParseUint (s : GoString) : Except NumError Nat :=
  if s = [] then Except.error NumError.ErrSyntax else parseUintLoop s 0

/-- Go `strconv.ParseInt(s, 10, 64)`: an optional sign, then `ParseUint`; the
value must fit in an `int64`. -/
def ParseInt (s : GoString) : Except NumError Int :=
  match s with
  | [] => Except.error NumError.ErrSyntax
  | c :: rest =>
    let neg : Bool := decide (c = 45)
    let digits : GoString := if c = 43 ∨ c = 45 then rest else s
    match ParseUint digits with
    | Except.error e => Except.error e
    | Except.ok un =>
      if neg = false ∧ un ≥ 2 ^ 63 then Except.error NumError.ErrRange
      else if neg = true ∧ un > 2 ^ 63 then Except.error NumError.ErrRange
      else Except.ok (if neg then -(un : Int) else (un : Int))

/-- Go `string(b)` for a byte `b`: the UTF-8 encoding of the code point `b`. -/
def byteToString (b : Byte) : GoString :=
  if b.val < 128 then [b] else [Fin.ofNat (192 + b.val / 64), Fin.ofNat (128 + b.val % 64)]

/-- `parseCapacity`: the slice `line[9:]` panics on a line shorter than 9
bytes, and a `ParseInt` error panics; `int` is taken to be 64 bits wide. -/
def parseCapacity (line : GoString) : Outcome Int :=
  if line.length < 9 then Outcome.panic (lit "slice bounds out of range")
  else
    match ParseInt (line.drop 9) with
    | Except.error _ => Outcome.panic (lit "strconv.ParseInt")
    | Except.ok capacity => Outcome.ret capacity

/-- `parseProbability`; `ParseFloat` stands for Go `strconv.ParseFloat(s, 64)`. -/
def parseProbability (ParseFloat : GoString → Except NumError Float64) (line : GoString) :
    Outcome Float64 :=
  if line.length < 12 then Outcome.panic (lit "slice bounds out of range")
  else
    match ParseFloat (line.drop 12) with
    | Except.error _ => Outcome.panic (lit "strconv.ParseFloat")
    | Except.ok probability => Outcome.ret probability

/-- `parseInMemory`: the index `line[len(line)-1]` panics on the empty line. -/
def parseInMemory (line : GoString) : Outcome Bool :=
  match line.getLast? with
  | none => Outcome.panic (lit "index out of range [-1]")
  | some b =>
    let digit := byteToString b
    Outcome.ret (decide (digit = lit "1"))

/-- `Client.GetFilter`; `conn` is the state of the connection `c.Conn`
designates. The fields of the composite literal are evaluated in order; an
index out of range and a panic of a helper are panics. `HashKeys` is not
given in the literal and keeps the zero value. -/
def Client.GetFilter (ParseFloat : GoString → Except NumError Float64) (c : Client)
    (name : GoString) (conn : Connection) :
    Outcome ((Option Filter × Option GoError) × Connection) :=
  let cmd := InfoCmd ++ lit " " ++ name
  match conn.Send cmd with
  | (some err, c1) => Outcome.ret ((none, some (GoError.conn err)), c1)
  | (none, c1) =>
    match c1.ReadBlock with
    | (Except.error err, c2) => Outcome.ret ((none, some (GoError.conn err)), c2)
    | (Except.ok filterInfo, c2) =>
      match filterInfo[0]? with
      | none => Outcome.panic (lit "index out of range [0]")
      | some l0 =>
        match parseCapacity l0 with
        | Outcome.panic msg => Outcome.panic msg
        | Outcome.ret capacity =>
          match filterInfo[7]? with
          | none => Outcome.panic (lit "index out of range [7]")
          | some l7 =>
            match parseProbability ParseFloat l7 with
            | Outcome.panic msg => Outcome.panic msg
            | Outcome.ret prob =>
              match filterInfo[4]? with
              | none => Outcome.panic (lit "index out of range [4]")
              | some l4 =>
                match parseInMemory l4 with
                | Outcome.panic msg => Outcome.panic msg
                | Outcome.ret inMemory =>
                  let filter : Filter := ⟨name, c.Conn, false, capacity, prob, inMemory⟩
                  Outcome.ret ((some filter, none), c2)

/-! ## Specification-side definitions -/

/-- The text of a line before its first space. -/
def beforeSpace (line : GoString) : GoString := line.takeWhile (fun b => decide (b ≠ sp))

/-- The text of a line after its first space. -/
def afterSpace (line : GoString) : GoString := (line.dropWhile (fun b => decide (b ≠ sp))).drop 1

/-- What the specification asks of a listing: the value under `k` is the text
after the first space of the last line whose text before the first space is
`k`. -/
def lastValue (lines : List GoString) (k : GoString) : Option GoString :=
  (lines.reverse.find? (fun l => decide (beforeSpace l = k))).map afterSpace

/-- The number a string of decimal digits denotes. -/
def decimalValue (s : GoString) : Nat := s.foldl (fun acc b => acc * 10 + (b.val - 48)) 0

/-- Tokens written one after the other, separated by exactly one space, with
no leading and no trailing space. -/
def joinSpace : List GoString → GoString
  | [] => []
  | [t] => t
  | t :: u :: rest => t ++ sp :: joinSpace (u :: rest)

/-- The eight-line info block of a filter, as the server sends it. -/
def infoBlock : List GoString :=
  [lit "START", lit "capacity 100", lit "checks 0", lit "check_hits 0", lit "check_misses 0",
   lit "in_memory 1", lit "page_ins 0", lit "page_outs 0", lit "probability 0.01", lit "END"]

/-- A stand-in for `strconv.ParseFloat` that reads every text as 0.01. -/
def parseFloatStub (_s : GoString) : Except NumError Float64 :=
  Except.ok ⟨0x3F847AE147AE147B⟩

/-- A connection whose writes succeed and whose next line read is `resp`. -/
def answering (sent : List GoString) (resp : GoString)
    (rest : List (Except ConnError GoString)) : Connection :=
  { sent := sent, writeErr := none, incoming := Except.ok resp :: rest }

/-- A connection on which nothing has been sent, whose writes succeed and
whose server delivers the given lines. -/
def freshConn (lines : List GoString) : Connection :=
  { sent := [], writeErr := none, incoming := lines.map Except.ok }

/-- A filter with the given name and key-hashing flag and no creation
parameter. -/
def mkFilter (name : GoString) (hash : Bool) : Filter :=
  { Name := name, Conn := some 1, HashKeys := hash, Capacity := 0, Prob := ⟨0⟩, InMemory := false }

/-- A client bound to the connection at address 1. -/
def mkClient (hash : Bool) : Client :=
  { Server := lit "localhost:8673", Timeout := 0, Conn := some 1, ServerInfo := [],
    InfoTime := 0, HashKeys := hash }

/-! ## Lemmas on the string functions -/

theorem foldl_snoc_map {α β : Type} (g : α → β) (l : List α) (acc : List β) :
    l.foldl (fun rs res => rs ++ [g res]) acc = acc ++ l.map g := by
  induction l generalizing acc with
  | nil => simp
  | cons a t ih => simp [List.foldl_cons, ih]

theorem genSplit_head_prefix (i : Nat) (s : GoString) (sep : Byte) :
    ∃ t ts, genSplit i s sep = t :: ts ∧ t <+: s := by
  cases i with
  | zero => exact ⟨s, [], rfl, List.prefix_refl s⟩
  | succ i =>
    simp only [genSplit]
    cases Index s sep with
    | none => exact ⟨s, [], rfl, List.prefix_refl s⟩
    | some m => exact ⟨s.take m, _, rfl, List.take_prefix m s⟩

theorem Split_eq_genSplit (s : GoString) (sep : Byte) :
    Split s sep = genSplit (Count s sep) s sep := by
  simp [Split, SplitN]

theorem Split_head_prefix (s : GoString) (sep : Byte) :
    ∃ t ts, Split s sep = t :: ts ∧ t <+: s := by
  rw [Split_eq_genSplit]
  exact genSplit_head_prefix _ s sep

theorem HasPrefix_of_tokens (resp : GoString)
    (htok : ∀ t ∈ Split resp sp, t = FilterYes ∨ t = FilterNo) :
    (HasPrefix resp FilterYes || HasPrefix resp FilterNo) = true := by
  obtain ⟨t, ts, hs, hp⟩ := Split_head_prefix resp sp
  have ht := htok t (by rw [hs]; exact List.mem_cons_self t ts)
  simp only [HasPrefix, Bool.or_eq_true, List.isPrefixOf_iff_prefix]
  rcases ht with h | h
  · left; rw [← h]; exact hp
  · right; rw [← h]; exact hp

/-! ## Lemmas on the exchange -/

theorem SendAndReceive_ok (conn : Connection) (cmd resp : GoString)
    (rest : List (Except ConnError GoString))
    (hw : conn.writeErr = none) (hin : conn.incoming = Except.ok resp :: rest) :
    conn.SendAndReceive cmd =
      (Except.ok resp, { sent := conn.sent ++ [cmd], writeErr := none, incoming := rest }) := by
  simp [Connection.SendAndReceive, Connection.Send, Connection.Read, hw, hin]

theorem groupCommand_tokens (f : Filter) (kind : GoString) (keys : List GoString)
    (resp : GoString) (conn : Connection) (rest : List (Except ConnError GoString))
    (hw : conn.writeErr = none) (hin : conn.incoming = Except.ok resp :: rest)
    (htok : ∀ t ∈ Split resp sp, t = FilterYes ∨ t = FilterNo) :
    (f.groupCommand kind keys conn).1 =
      ((Split resp sp).map (fun t => decide (t = FilterYes)), none) := by
  simp only [Filter.groupCommand, SendAndReceive_ok conn _ resp rest hw hin,
    HasPrefix_of_tokens resp htok, if_true, foldl_snoc_map, List.nil_append]

/-- C1: Bulk and Multi preserve positional correspondence. For every filter,
every key list and every response line whose space-separated tokens are as
many as the keys and each `Yes` or `No`, both return a nil error and a boolean
sequence of the length of the key list whose i-th element is true exactly when
the i-th token is `Yes`. -/
theorem Bulk_Multi_positional (f : Filter) (keys : List GoString) (resp : GoString)
    (conn : Connection) (rest : List (Except ConnError GoString))
    (hw : conn.writeErr = none) (hin : conn.incoming = Except.ok resp :: rest)
    (hlen : (Split resp sp).length = keys.length)
    (htok : ∀ t ∈ Split resp sp, t = FilterYes ∨ t = FilterNo) :
    ((f.Bulk keys conn).1.2 = none ∧ (f.Bulk keys conn).1.1.length = keys.length ∧
      ∀ (i : Nat) (t : GoString), (Split resp sp)[i]? = some t →
        (f.Bulk keys conn).1.1[i]? = some (decide (t = FilterYes))) ∧
    ((f.Multi keys conn).1.2 = none ∧ (f.Multi keys conn).1.1.length = keys.length ∧
      ∀ (i : Nat) (t : GoString), (Split resp sp)[i]? = some t →
        (f.Multi keys conn).1.1[i]? = some (decide (t = FilterYes))) := by
  have hb := groupCommand_tokens f FilterBulkCmd keys resp conn rest hw hin htok
  have hm := groupCommand_tokens f FilterMultiCmd keys resp conn rest hw hin htok
  simp only [Filter.Bulk, Filter.Multi, hb, hm, List.length_map, hlen, true_and]
  refine ⟨fun i t h => ?_, fun i t h => ?_⟩ <;> simp [List.getElem?_map, h]

/-- Witness of C1: three keys and the response `Yes No Yes` give
`[true, false, true]` with a nil error. -/
theorem Bulk_Multi_positional_witness :
    (Filter.Bulk (mkFilter (lit "foo") false) [lit "a", lit "b", lit "c"]
        (freshConn [lit "Yes No Yes"])).1 = ([true, false, true], none) ∧
    (Filter.Bulk (mkFilter (lit "foo") false) [lit "a", lit "b", lit "c"]
        (freshConn [lit "Yes No Yes"])).1.2 = none ∧
    (Filter.Multi (mkFilter (lit "foo") false) [lit "a", lit "b", lit "c"]
        (freshConn [lit "Yes No Yes"])).1.1.length = [lit "a", lit "b", lit "c"].length :=
  ⟨by decide,
   (Bulk_Multi_positional (mkFilter (lit "foo") false) [lit "a", lit "b", lit "c"]
      (lit "Yes No Yes") (freshConn [lit "Yes No Yes"]) [] rfl rfl (by decide) (by decide)).1.1,
   (Bulk_Multi_positional (mkFilter (lit "foo") false) [lit "a", lit "b", lit "c"]
      (lit "Yes No Yes") (freshConn [lit "Yes No Yes"]) [] rfl rfl (by decide)
      (by decide)).2.2.1⟩

/-- Counterexample to C2: three keys and the two-token response `Yes No` give a
nil error and a result of length two. -/
theorem Bulk_count_mismatch_no_error :
    (Split (lit "Yes No") sp).length ≠ [lit "a", lit "b", lit "c"].length ∧
    (Filter.Bulk (mkFilter (lit "foo") false) [lit "a", lit "b", lit "c"]
        (freshConn [lit "Yes No"])).1 = ([true, false], none) ∧
    (Filter.Multi (mkFilter (lit "foo") false) [lit "a", lit "b", lit "c"]
        (freshConn [lit "Yes No"])).1 = ([true, false], none) := by
  decide

/-- C2 as amended: Bulk and Multi do not compare the number of tokens with the
number of keys. For every key list and every response line made of `Yes`/`No`
tokens, however many, both return a nil error and one boolean per token, true
exactly for the `Yes` tokens. -/
theorem Bulk_Multi_one_result_per_token (f : Filter) (keys : List GoString)
    (resp : GoString) (conn : Connection) (rest : List (Except ConnError GoString))
    (hw : conn.writeErr = none) (hin : conn.incoming = Except.ok resp :: rest)
    (htok : ∀ t ∈ Split resp sp, t = FilterYes ∨ t = FilterNo) :
    (f.Bulk keys conn).1 = ((Split resp sp).map (fun t => decide (t = FilterYes)), none) ∧
    (f.Multi keys conn).1 = ((Split resp sp).map (fun t => decide (t = FilterYes)), none) ∧
    (f.Bulk keys conn).1.1.length = (Split resp sp).length ∧
    (f.Multi keys conn).1.1.length = (Split resp sp).length := by
  have hb := groupCommand_tokens f FilterBulkCmd keys resp conn rest hw hin htok
  have hm := groupCommand_tokens f FilterMultiCmd keys resp conn rest hw hin htok
  simp only [Filter.Bulk, Filter.Multi, hb, hm, List.length_map, and_self]

/-- Witness of the amended C2: one key and the response `No Yes`. -/
theorem Bulk_Multi_one_result_per_token_witness :
    (Filter.Bulk (mkFilter (lit "foo") false) [lit "a"] (freshConn [lit "No Yes"])).1 =
      ((Split (lit "No Yes") sp).map (fun t => decide (t = FilterYes)), none) ∧
    (Filter.Bulk (mkFilter (lit "foo") false) [lit "a"] (freshConn [lit "No Yes"])).1.1 =
      [false, true] :=
  ⟨(Bulk_Multi_one_result_per_token (mkFilter (lit "foo") false) [lit "a"] (lit "No Yes")
      (freshConn [lit "No Yes"]) [] rfl rfl (by decide)).1, by decide⟩

/-- C3, the code at the failing inputs: on the responses `Filter does not
exist` and `Yesterday`, Check, Bulk and Multi return a boolean result with a
nil error, while Set returns the invalid-response error. -/
theorem Check_Bulk_Multi_swallow_unrecognized :
    (Filter.Check (mkFilter (lit "foo") false) (lit "a")
        (freshConn [lit "Filter does not exist"])).1 = (false, none) ∧
    (Filter.Check (mkFilter (lit "foo") false) (lit "a")
        (freshConn [lit "Yesterday"])).1 = (false, none) ∧
    (Filter.Bulk (mkFilter (lit "foo") false) [lit "a"]
        (freshConn [lit "Filter does not exist"])).1 = ([], none) ∧
    (Filter.Multi (mkFilter (lit "foo") false) [lit "a"]
        (freshConn [lit "Yesterday"])).1 = ([false], none) ∧
    (Filter.Set (mkFilter (lit "foo") false) (lit "a")
        (freshConn [lit "Filter does not exist"])).1 =
      (false, some (GoError.errInvalidResponse (lit "Filter does not exist"))) := by
  decide

/-- C4, the code at every response: once the command is written and a line is
read, Client.Flush has sent `flush` and returns nil whatever the line is. -/
theorem Client_Flush_nil_for_every_response (c : Client) (sent : List GoString)
    (resp : GoString) (rest : List (Except ConnError GoString)) :
    Client.Flush c { sent := sent, writeErr := none, incoming := Except.ok resp :: rest } =
      (none, { sent := sent ++ [lit "flush"], writeErr := none, incoming := rest }) ∧
    (Client.Flush (mkClient false) (freshConn [lit "Filter does not exist"])).1 = none := by
  refine ⟨?_, by decide⟩
  simp [Client.Flush, Connection.Send, Connection.Read, FlushCmd]

/-! ## Lemmas on the decimal rendering -/

theorem toDigitsCore_append (fuel n : Nat) (ds : List Char) :
    Nat.toDigitsCore 10 fuel n ds = Nat.toDigitsCore 10 fuel n [] ++ ds := by
  induction fuel generalizing n ds with
  | zero => simp [Nat.toDigitsCore]
  | succ fuel ih =>
    simp only [Nat.toDigitsCore]
    split
    · simp
    · rw [ih (n / 10) (_ :: ds), ih (n / 10) [_]]
      simp

theorem decimalValue_digitChar (k : Nat) (hk : k < 10) :
    (charByte (Nat.digitChar k)).val - 48 = k := by
  interval_cases k <;> decide

theorem decimalValue_snoc (s : GoString) (b : Byte) :
    decimalValue (s ++ [b]) = decimalValue s * 10 + (b.val - 48) := by
  simp [decimalValue, List.foldl_append]

theorem decimalValue_toDigitsCore (fuel n : Nat) (h : n < fuel) :
    decimalValue ((Nat.toDigitsCore 10 fuel n []).map charByte) = n := by
  induction fuel generalizing n with
  | zero => omega
  | succ fuel ih =>
    simp only [Nat.toDigitsCore]
    split
    · rename_i h0
      have hlt : n < 10 := by omega
      have := decimalValue_digitChar (n % 10) (Nat.mod_lt _ (by decide))
      simp [decimalValue, this]
      omega
    · rename_i h0
      rw [toDigitsCore_append, List.map_append, List.map_singleton, decimalValue_snoc,
        ih (n / 10) (by omega), decimalValue_digitChar (n % 10) (Nat.mod_lt _ (by decide))]
      omega

theorem decimalValue_Itoa (n : Nat) : decimalValue (Itoa (Int.ofNat n)) = n := by
  simp only [Itoa, Nat.toDigits]
  exact decimalValue_toDigitsCore (n + 1) n (Nat.lt_succ_self n)

/-- C5: CreateFilter rejects a probability without a capacity before any I/O.
For every filter with Prob > 0 and Capacity < 1 it returns the
invalid-capacity error and leaves the filter and the connection (commands
sent, lines still to read) exactly as they were. -/
theorem CreateFilter_rejects_prob_without_capacity (FormatFloat : Float64 → GoString)
    (c : Client) (f : Filter) (conn : Connection)
    (hp : f.Prob.gtZero = true) (hc : f.Capacity < 1) :
    Client.CreateFilter FormatFloat c f conn = (some GoError.errInvalidCapacity, f, conn) := by
  simp [Client.CreateFilter, hp, hc]

/-- Witness of C5: probability 0.01 with capacity 0. -/
theorem CreateFilter_rejects_prob_without_capacity_witness :
    (Client.CreateFilter (fun _ => lit "0.01") (mkClient false)
        { mkFilter (lit "foo") false with Prob := ⟨0x3F847AE147AE147B⟩ }
        (freshConn [lit "Done"])).1 = some GoError.errInvalidCapacity ∧
    (Client.CreateFilter (fun _ => lit "0.01") (mkClient false)
        { mkFilter (lit "foo") false with Prob := ⟨0x3F847AE147AE147B⟩ }
        (freshConn [lit "Done"])).2.2.sent = [] :=
  ⟨congrArg Prod.fst (CreateFilter_rejects_prob_without_capacity (fun _ => lit "0.01")
      (mkClient false) { mkFilter (lit "foo") false with Prob := ⟨0x3F847AE147AE147B⟩ }
      (freshConn [lit "Done"]) (by decide) (by decide)),
   by decide⟩

/-- C6: create is idempotent on the response side. For every filter that
passes argument validation, once the command is written and a line is read,
CreateFilter returns nil exactly when the line is `Done` or `Exists`. -/
theorem CreateFilter_nil_iff_Done_or_Exists (FormatFloat : Float64 → GoString)
    (c : Client) (f : Filter) (conn : Connection) (resp : GoString)
    (rest : List (Except ConnError GoString))
    (hv : ¬ (f.Prob.gtZero = true ∧ f.Capacity < 1))
    (hw : conn.writeErr = none) (hin : conn.incoming = Except.ok resp :: rest) :
    ((Client.CreateFilter FormatFloat c f conn).1 = none ↔
      (resp = lit "Done" ∨ resp = lit "Exists")) ∧
    ((Client.CreateFilter FormatFloat c f conn).1 ≠ none →
      (Client.CreateFilter FormatFloat c f conn).1 = some (GoError.errInvalidResponse resp)) := by
  have hv2 : (f.Prob.gtZero && decide (f.Capacity < 1)) = false := by
    cases hg : f.Prob.gtZero <;> simp_all
  simp only [Client.CreateFilter, hv2, Connection.Send, Connection.Read, hw, hin,
    RespDone, RespExists]
  by_cases h1 : resp = lit "Done"
  · simp [h1]
  · by_cases h2 : resp = lit "Exists"
    · simp [h2]
    · simp [h1, h2]

/-- Witness of C6: a filter without parameters and the response `Exists`. -/
theorem CreateFilter_nil_iff_Done_or_Exists_witness :
    (Client.CreateFilter (fun _ => lit "0") (mkClient false) (mkFilter (lit "foo") false)
        (freshConn [lit "Exists"])).1 = none :=
  ((CreateFilter_nil_iff_Done_or_Exists (fun _ => lit "0") (mkClient false)
      (mkFilter (lit "foo") false) (freshConn [lit "Exists"]) (lit "Exists") []
      (by decide) rfl rfl).1).2 (Or.inr rfl)

/-- C7: the create command has the documented shape. For every filter that
passes argument validation, the command CreateFilter hands to the connection
is `create <Name>`, then ` capacity=<decimal Capacity>` exactly when
Capacity > 0, then ` prob=<Prob>` exactly when Prob > 0, then ` in_memory=1`
exactly when InMemory is set, and nothing else; the capacity digits denote
Capacity. -/
theorem CreateFilter_command_shape (FormatFloat : Float64 → GoString)
    (c : Client) (f : Filter) (conn : Connection)
    (hv : ¬ (f.Prob.gtZero = true ∧ f.Capacity < 1)) :
    (Client.CreateFilter FormatFloat c f conn).2.2.sent = conn.sent ++
      [lit "create" ++ [sp] ++ f.Name
        ++ (if 0 < f.Capacity then sp :: lit "capacity=" ++ Itoa f.Capacity else [])
        ++ (if f.Prob.gtZero = true then sp :: lit "prob=" ++ FormatFloat f.Prob else [])
        ++ (if f.InMemory = true then sp :: lit "in_memory=1" else [])] ∧
    (0 < f.Capacity → (decimalValue (Itoa f.Capacity) : Int) = f.Capacity) := by
  have hv2 : (f.Prob.gtZero && decide (f.Capacity < 1)) = false := by
    cases hg : f.Prob.gtZero <;> simp_all
  constructor
  · have hcmd : createCmd FormatFloat f = lit "create" ++ [sp] ++ f.Name
        ++ (if 0 < f.Capacity then sp :: lit "capacity=" ++ Itoa f.Capacity else [])
        ++ (if f.Prob.gtZero = true then sp :: lit "prob=" ++ FormatFloat f.Prob else [])
        ++ (if f.InMemory = true then sp :: lit "in_memory=1" else []) := by
      have e1 : lit " " = [sp] := by decide
      have e2 : lit " capacity=" = sp :: lit "capacity=" := by decide
      have e3 : lit " prob=" = sp :: lit "prob=" := by decide
      have e4 : lit " in_memory=1" = sp :: lit "in_memory=1" := by decide
      simp only [createCmd, CreateCmd, e1, e2, e3, e4, gt_iff_lt]
      split_ifs <;> simp
    simp only [Client.CreateFilter, hv2, Connection.Send, Connection.Read]
    rw [← hcmd]
    cases conn.writeErr with
    | some e => simp
    | none =>
      cases conn.incoming with
      | nil => simp
      | cons r rest =>
        cases r with
        | error e => simp
        | ok resp => by_cases h : resp ≠ RespDone ∧ resp ≠ RespExists <;> simp [h]
  · intro hpos
    obtain ⟨n, hn⟩ := Int.eq_ofNat_of_zero_le (le_of_lt hpos)
    rw [hn]
    exact congrArg Int.ofNat (decimalValue_Itoa n)

/-- Witness of C7: Name foo, Capacity 100, Prob 0.01 give
`create foo capacity=100 prob=0.01`. -/
theorem CreateFilter_command_shape_witness :
    (Client.CreateFilter (fun _ => lit "0.01") (mkClient false)
        { mkFilter (lit "foo") false with Capacity := 100, Prob := ⟨0x3F847AE147AE147B⟩ }
        (freshConn [lit "Done"])).2.2.sent = [lit "create foo capacity=100 prob=0.01"] :=
  ((CreateFilter_command_shape (fun _ => lit "0.01") (mkClient false)
      { mkFilter (lit "foo") false with Capacity := 100, Prob := ⟨0x3F847AE147AE147B⟩ }
      (freshConn [lit "Done"]) (by decide)).1).trans (by decide)

/-! ## Lemmas on the hexadecimal rendering -/

theorem hexDigit_ne_sp : ∀ n, n < 16 → hexDigit n ≠ sp := by decide

theorem sp_not_mem_sprintfHex (s : GoString) : sp ∉ sprintfHex s := by
  induction s with
  | nil => simp [sprintfHex]
  | cons b t ih =>
    have h1 : hexDigit (b.val / 16) ≠ sp := hexDigit_ne_sp _ (by omega)
    have h2 : hexDigit (b.val % 16) ≠ sp := hexDigit_ne_sp _ (Nat.mod_lt _ (by decide))
    simp only [sprintfHex, List.mem_cons, not_or]
    exact ⟨fun h => h1 h.symm, fun h => h2 h.symm, ih⟩

theorem length_sprintfHex (s : GoString) : (sprintfHex s).length = 2 * s.length := by
  induction s with
  | nil => rfl
  | cons b t ih => simp only [sprintfHex, List.length_cons, ih]; omega

theorem sha1_empty :
    sha1 [] = [0xda, 0x39, 0xa3, 0xee, 0x5e, 0x6b, 0x4b, 0x0d, 0x32, 0x55,
      0xbf, 0xef, 0x95, 0x60, 0x18, 0x90, 0xaf, 0xd8, 0x07, 0x09] := by
  decide

theorem getKey_hashed (f : Filter) (key : GoString) (h : f.HashKeys = true) :
    f.getKey key = sprintfHex (key ++ sha1 []) := by
  simp [Filter.getKey, h, sha1New, Sha1Hash.Sum]

/-- C8: key hashing is a pure, whitespace-free transform. With HashKeys
enabled the wire token depends on the key only (two filters, or two calls,
give the same token for the same key) and it contains no space character,
whatever bytes the key holds. -/
theorem getKey_hashed_pure_no_space (f g : Filter) (key : GoString)
    (hf : f.HashKeys = true) (hg : g.HashKeys = true) :
    f.getKey key = g.getKey key ∧ sp ∉ f.getKey key := by
  rw [getKey_hashed f key hf, getKey_hashed g key hg]
  exact ⟨rfl, sp_not_mem_sprintfHex _⟩

/-- Witness of C8: a key made of a space, a newline and a NUL byte. -/
theorem getKey_hashed_pure_no_space_witness :
    (mkFilter (lit "foo") true).getKey [32, 10, 0] = (mkFilter (lit "bar") true).getKey [32, 10, 0] ∧
    sp ∉ (mkFilter (lit "foo") true).getKey [32, 10, 0] :=
  getKey_hashed_pure_no_space (mkFilter (lit "foo") true) (mkFilter (lit "bar") true)
    [32, 10, 0] rfl rfl

/-- C9, the code at the failing inputs: with HashKeys enabled the one-byte key
`a` gives a token of 42 characters, longer than a 40-character digest, and no
bound holds: for every B some key has a token longer than B. -/
theorem getKey_hashed_length_unbounded :
    ((mkFilter (lit "foo") true).getKey (lit "a")).length = 42 ∧
    ∀ (B : Nat) (name : GoString), ∃ key : GoString,
      B < ((mkFilter name true).getKey key).length := by
  refine ⟨?_, fun B name => ⟨List.replicate (B + 1) 0, ?_⟩⟩
  · rw [getKey_hashed _ _ rfl, length_sprintfHex, sha1_empty]
    rfl
  · rw [getKey_hashed _ _ rfl, length_sprintfHex, List.length_append, List.length_replicate]
    omega

/-! ## Lemmas on the listing -/

theorem Index_of_mem (line : GoString) (h : sp ∈ line) :
    ∃ m, Index line sp = some m ∧ line.take m = beforeSpace line ∧
      line.drop (m + 1) = afterSpace line := by
  induction line with
  | nil => simp at h
  | cons b t ih =>
    by_cases hb : b = sp
    · exact ⟨0, by simp [Index, hb], by simp [beforeSpace, hb], by simp [afterSpace, hb]⟩
    · have ht : sp ∈ t := by
        rcases List.mem_cons.mp h with h1 | h1
        · exact absurd h1.symm hb
        · exact h1
      obtain ⟨m, hm, htake, hdrop⟩ := ih ht
      refine ⟨m + 1, by simp [Index, hb, hm], ?_, ?_⟩
      · simp only [beforeSpace] at htake ⊢
        simp [List.takeWhile_cons, hb, htake]
      · simp only [afterSpace] at hdrop ⊢
        simp [List.dropWhile_cons, hb, hdrop]

theorem listStep_of_mem (m : GoMap) (line : GoString) (h : sp ∈ line) :
    listStep m line = some (m.set (beforeSpace line) (afterSpace line)) := by
  obtain ⟨i, hi, htake, hdrop⟩ := Index_of_mem line h
  simp [listStep, SplitN, genSplit, hi, htake, hdrop]

theorem lookup_filter_ne (k k2 : GoString) (hk : k2 ≠ k) (t : GoMap) :
    List.lookup k2 (t.filter (fun p => decide (p.1 ≠ k))) = List.lookup k2 t := by
  induction t with
  | nil => rfl
  | cons p t ih =>
    obtain ⟨a, b⟩ := p
    by_cases ha : a = k
    · have h2 : (k2 == a) = false := by rw [ha]; simpa using hk
      rw [List.filter_cons_of_neg (by simp [ha]), ih, List.lookup_cons, h2]
    · rw [List.filter_cons_of_pos (by simpa using ha), List.lookup_cons, List.lookup_cons, ih]

theorem GoMap_get_set (m : GoMap) (k v k2 : GoString) :
    (m.set k v).get k2 = if k2 = k then some v else m.get k2 := by
  by_cases hk : k2 = k
  · simp [GoMap.set, GoMap.get, List.lookup_cons, hk]
  · have hne : (k2 == k) = false := by simpa using hk
    simp only [GoMap.set, GoMap.get, List.lookup_cons, hne, hk, if_false]
    exact lookup_filter_ne k k2 hk m

theorem lastValue_cons (l : GoString) (ls : List GoString) (k : GoString) :
    lastValue (l :: ls) k =
      match lastValue ls k with
      | some v => some v
      | none => if beforeSpace l = k then some (afterSpace l) else none := by
  simp only [lastValue, List.reverse_cons, List.find?_append]
  cases h : List.find? (fun l => decide (beforeSpace l = k)) ls.reverse with
  | some x => simp
  | none =>
    by_cases hk : beforeSpace l = k <;> simp [List.find?, hk]

theorem foldlM_listStep (lines : List GoString) (m : GoMap) (h : ∀ l ∈ lines, sp ∈ l) :
    ∃ m2, lines.foldlM listStep m = some m2 ∧
      ∀ k, m2.get k = match lastValue lines k with
        | some v => some v
        | none => m.get k := by
  induction lines generalizing m with
  | nil => exact ⟨m, rfl, fun k => by simp [lastValue]⟩
  | cons l ls ih =>
    obtain ⟨m2, hm2, hget⟩ := ih (m.set (beforeSpace l) (afterSpace l))
      (fun x hx => h x (List.mem_cons_of_mem _ hx))
    refine ⟨m2, ?_, fun k => ?_⟩
    · simp [List.foldlM, listStep_of_mem m l (h l (List.mem_cons_self _ _)), hm2]
    · rw [hget k, lastValue_cons, GoMap_get_set]
      cases lastValue ls k with
      | some v => rfl
      | none =>
        by_cases hk : beforeSpace l = k
        · simp [hk]
        · have hk2 : ¬ k = beforeSpace l := fun e => hk e.symm
          simp [hk, hk2]

theorem lastValue_isSome (lines : List GoString) (k : GoString) :
    (lastValue lines k).isSome = true ↔ ∃ l ∈ lines, beforeSpace l = k := by
  simp [lastValue, List.find?_isSome]

theorem readBlockBody_lines (lines acc : List GoString)
    (rest : List (Except ConnError GoString)) (h : ∀ l ∈ lines, l ≠ BlockEnd) :
    readBlockBody (lines.map Except.ok ++ Except.ok BlockEnd :: rest) acc =
      (Except.ok (acc ++ lines), rest) := by
  induction lines generalizing acc with
  | nil => simp [readBlockBody]
  | cons l ls ih =>
    have hl : l ≠ BlockEnd := h l (List.mem_cons_self _ _)
    have step : readBlockBody
        (Except.ok l :: (ls.map Except.ok ++ Except.ok BlockEnd :: rest)) acc =
        readBlockBody (ls.map Except.ok ++ Except.ok BlockEnd :: rest) (acc ++ [l]) := by
      simp [readBlockBody, hl]
    simp only [List.map_cons, List.cons_append]
    rw [step, ih (acc ++ [l]) (fun x hx => h x (List.mem_cons_of_mem _ hx))]
    simp

theorem ne_BlockEnd_of_mem (l : GoString) (h : sp ∈ l) : l ≠ BlockEnd := by
  intro e
  rw [e] at h
  revert h
  decide

/-- C10: ListFilters builds its mapping by splitting each block line on the
first space only. For every block whose lines each contain a space, the call
returns a nil error and a mapping whose keys are exactly the texts before the
first space of the lines, each mapped to the whole text after the first space
of the last line carrying that key. -/
theorem ListFilters_splits_on_first_space (c : Client) (sent : List GoString)
    (lines : List GoString) (rest : List (Except ConnError GoString))
    (hsp : ∀ l ∈ lines, sp ∈ l) :
    ∃ m : GoMap,
      Client.ListFilters c
        { sent := sent, writeErr := none,
          incoming := Except.ok BlockStart ::
            (lines.map Except.ok ++ Except.ok BlockEnd :: rest) } =
        Outcome.ret ((m, none),
          { sent := sent ++ [lit "list"], writeErr := none, incoming := rest }) ∧
      (∀ k, (m.get k).isSome = true ↔ ∃ l ∈ lines, beforeSpace l = k) ∧
      (∀ k, m.get k = lastValue lines k) := by
  obtain ⟨m, hm, hget⟩ := foldlM_listStep lines [] hsp
  have hall : ∀ k, m.get k = lastValue lines k := by
    intro k
    rw [hget k]
    cases lastValue lines k <;> simp [GoMap.get]
  refine ⟨m, ?_, fun k => ?_, hall⟩
  · have hb := readBlockBody_lines lines [] rest (fun l hl => ne_BlockEnd_of_mem l (hsp l hl))
    simp only [List.nil_append] at hb
    simp [Client.ListFilters, Connection.Send, Connection.ReadBlock, readBlockStart, hb, hm,
      ListCmd]
  · rw [hall k]
    exact lastValue_isSome lines k

/-- Witness of C10: the line `foo 100 0 0 00 0 0 0.0100 0` gives the key `foo`
with the value `100 0 0 00 0 0 0.0100 0`. -/
theorem ListFilters_splits_on_first_space_witness :
    lastValue [lit "foo 100 0 0 00 0 0 0.0100 0"] (lit "foo") =
      some (lit "100 0 0 00 0 0 0.0100 0") ∧
    ∃ m : GoMap,
      Client.ListFilters (mkClient false)
        { sent := [], writeErr := none,
          incoming := Except.ok BlockStart ::
            ([lit "foo 100 0 0 00 0 0 0.0100 0"].map Except.ok ++ Except.ok BlockEnd :: []) } =
        Outcome.ret ((m, none),
          { sent := [] ++ [lit "list"], writeErr := none, incoming := [] }) ∧
      (∀ k, (m.get k).isSome = true ↔
        ∃ l ∈ [lit "foo 100 0 0 00 0 0 0.0100 0"], beforeSpace l = k) ∧
      (∀ k, m.get k = lastValue [lit "foo 100 0 0 00 0 0 0.0100 0"] k) :=
  ⟨by decide,
   ListFilters_splits_on_first_space (mkClient false) []
    [lit "foo 100 0 0 00 0 0 0.0100 0"] [] (by decide)⟩

/-! ## Lemmas on lines without a space -/

theorem Index_of_not_mem (s : GoString) (sep : Byte) (h : sep ∉ s) : Index s sep = none := by
  induction s with
  | nil => rfl
  | cons b t ih =>
    have hb : b ≠ sep := fun e => h (by rw [e]; exact List.mem_cons_self _ _)
    have ht : sep ∉ t := fun e => h (List.mem_cons_of_mem _ e)
    simp [Index, hb, ih ht]

theorem listStep_of_not_mem (m : GoMap) (line : GoString) (h : sp ∉ line) :
    listStep m line = none := by
  simp [listStep, SplitN, genSplit, Index_of_not_mem line sp h]

theorem foldlM_listStep_none (lines : List GoString) (m : GoMap) (h : ∃ l ∈ lines, sp ∉ l) :
    lines.foldlM listStep m = none := by
  induction lines generalizing m with
  | nil => obtain ⟨l, hl, _⟩ := h; simp at hl
  | cons l ls ih =>
    by_cases hl : sp ∈ l
    · obtain ⟨x, hx, hxs⟩ := h
      have hx2 : x ∈ ls := by
        rcases List.mem_cons.mp hx with e | e
        · exact absurd (e ▸ hl) hxs
        · exact e
      simp [List.foldlM, listStep_of_mem m l hl, ih _ ⟨x, hx2, hxs⟩]
    · simp [List.foldlM, listStep_of_not_mem m l hl]

/-- C11, the code on every block with a line that has no space: ListFilters
panics on the index `split[1]`; it returns neither an error nor a mapping. -/
theorem ListFilters_panics_on_line_without_space (c : Client) (sent : List GoString)
    (lines : List GoString) (rest : List (Except ConnError GoString))
    (hend : ∀ l ∈ lines, l ≠ BlockEnd) (hbad : ∃ l ∈ lines, sp ∉ l) :
    Client.ListFilters c
        { sent := sent, writeErr := none,
          incoming := Except.ok BlockStart ::
            (lines.map Except.ok ++ Except.ok BlockEnd :: rest) } =
      Outcome.panic (lit "index out of range [1] with length 1") := by
  have hb := readBlockBody_lines lines [] rest hend
  simp only [List.nil_append] at hb
  simp [Client.ListFilters, Connection.Send, Connection.ReadBlock, readBlockStart, hb,
    foldlM_listStep_none lines [] hbad]

/-- Witness of C11: the block `a 1`, `foo`. -/
theorem ListFilters_panics_on_line_without_space_witness :
    (∃ l ∈ [lit "a 1", lit "foo"], sp ∉ l) ∧
    Client.ListFilters (mkClient false)
        { sent := [], writeErr := none,
          incoming := Except.ok BlockStart ::
            ([lit "a 1", lit "foo"].map Except.ok ++ Except.ok BlockEnd :: []) } =
      Outcome.panic (lit "index out of range [1] with length 1") :=
  ⟨by decide,
   ListFilters_panics_on_line_without_space (mkClient false) [] [lit "a 1", lit "foo"] []
    (by decide) (by decide)⟩

/-- Counterexample to C12: `xxxxxxxxx42` does not begin with the capacity
field name and parseCapacity returns 42; `in_memory 7` ends in neither `0` nor
`1` and parseInMemory returns false. -/
theorem parse_helpers_accept_wrong_shape :
    HasPrefix (lit "xxxxxxxxx42") (lit "capacity") = false ∧
    parseCapacity (lit "xxxxxxxxx42") = Outcome.ret 42 ∧
    (lit "in_memory 7").getLast? = some 55 ∧
    parseInMemory (lit "in_memory 7") = Outcome.ret false := by
  decide

/-- C12 as amended: the info-field helpers look at positions, not at field
names. parseCapacity panics exactly on a line shorter than 9 bytes or whose
text from the 10th byte on strconv.ParseInt rejects, parseProbability exactly
on a line shorter than 12 bytes or whose text from the 13th byte on
strconv.ParseFloat rejects, and neither looks at the bytes before; otherwise
they return the parsed value. parseInMemory panics exactly on the empty line
and otherwise returns whether the final character is `1`. -/
theorem parse_helpers_positional (ParseFloat : GoString → Except NumError Float64) :
    (∀ line, (parseCapacity line).isPanic = true ↔
      (line.length < 9 ∨ ∃ e, ParseInt (line.drop 9) = Except.error e)) ∧
    (∀ pre rest v, pre.length = 9 → ParseInt rest = Except.ok v →
      parseCapacity (pre ++ rest) = Outcome.ret v) ∧
    (∀ line, (parseProbability ParseFloat line).isPanic = true ↔
      (line.length < 12 ∨ ∃ e, ParseFloat (line.drop 12) = Except.error e)) ∧
    (∀ pre rest v, pre.length = 12 → ParseFloat rest = Except.ok v →
      parseProbability ParseFloat (pre ++ rest) = Outcome.ret v) ∧
    (∀ line, (parseInMemory line).isPanic = true ↔ line = []) ∧
    (∀ line b, parseInMemory (line ++ [b]) = Outcome.ret (decide (b = 49))) := by
  refine ⟨fun line => ?_, fun pre rest v hp hv => ?_, fun line => ?_,
    fun pre rest v hp hv => ?_, fun line => ?_, fun line b => ?_⟩
  · unfold parseCapacity
    by_cases h : line.length < 9
    · simp [h, Outcome.isPanic]
    · cases hp : ParseInt (line.drop 9) <;> simp [h, hp, Outcome.isPanic]
  · have hd : (pre ++ rest).drop 9 = rest := by rw [← hp]; exact List.drop_left _ _
    simp [parseCapacity, hp, hd, hv]
  · unfold parseProbability
    by_cases h : line.length < 12
    · simp [h, Outcome.isPanic]
    · cases hp : ParseFloat (line.drop 12) <;> simp [h, hp, Outcome.isPanic]
  · have hd : (pre ++ rest).drop 12 = rest := by rw [← hp]; exact List.drop_left _ _
    simp [parseProbability, hp, hd, hv]
  · unfold parseInMemory
    cases hl : line.getLast? with
    | none => simpa [Outcome.isPanic] using List.getLast?_eq_none_iff.mp hl
    | some b =>
      have : line ≠ [] := fun e => by simp [e] at hl
      simp [Outcome.isPanic, this]
  · have hbs : ∀ x : Byte, (byteToString x = lit "1") = (x = 49) := by decide
    simp [parseInMemory, hbs]

/-- Witness of the amended C12: the lines of the counterexample, and the
short line `capacity`. -/
theorem parse_helpers_positional_witness :
    parseCapacity (lit "xxxxxxxxx" ++ lit "42") = Outcome.ret 42 ∧
    (parseCapacity (lit "capacity")).isPanic = true ∧
    parseInMemory (lit "in_memory " ++ [55]) = Outcome.ret (decide ((55 : Byte) = 49)) :=
  ⟨(parse_helpers_positional parseFloatStub).2.1 (lit "xxxxxxxxx") (lit "42") 42
      (by decide) rfl,
   ((parse_helpers_positional parseFloatStub).1 (lit "capacity")).2 (Or.inl (by decide)),
   (parse_helpers_positional parseFloatStub).2.2.2.2.2 (lit "in_memory ") 55⟩

/-- C13: each single-key operation maps the status tokens to booleans. For
every filter and key, once the command is written and the line is read, Set
and Check return (true, nil) on `Yes` and (false, nil) on `No`. -/
theorem Set_Check_map_tokens (f : Filter) (key : GoString) (sent : List GoString)
    (rest : List (Except ConnError GoString)) :
    (f.Set key (answering sent (lit "Yes") rest)).1 = (true, none) ∧
    (f.Set key (answering sent (lit "No") rest)).1 = (false, none) ∧
    (f.Check key (answering sent (lit "Yes") rest)).1 = (true, none) ∧
    (f.Check key (answering sent (lit "No") rest)).1 = (false, none) := by
  have hy : HasPrefix (lit "Yes") FilterYes = true := by decide
  have hn : HasPrefix (lit "No") FilterNo = true := by decide
  have e1 : (lit "Yes" = FilterYes) = True := by simp [FilterYes]
  have e2 : (lit "No" = FilterNo) = True := by simp [FilterNo]
  have e3 : (lit "No" = FilterYes) = False := by
    simp only [eq_iff_iff, iff_false]; decide
  refine ⟨?_, ?_, ?_, ?_⟩
  · simp [answering, Filter.Set, Connection.SendAndReceive, Connection.Send, Connection.Read, e1]
  · simp [answering, Filter.Set, Connection.SendAndReceive, Connection.Send, Connection.Read, e2,
      e3]
  · simp [answering, Filter.Check, Filter.singleCommand, Connection.SendAndReceive, Connection.Send,
      Connection.Read, hy, e1]
  · simp [answering, Filter.Check, Filter.singleCommand, Connection.SendAndReceive, Connection.Send,
      Connection.Read, hn, e3]

theorem sendCommand_ok (f : Filter) (cmd : GoString) (sent : List GoString) (resp : GoString)
    (rest : List (Except ConnError GoString)) :
    f.sendCommand cmd (answering sent resp rest) =
      (if resp = lit "Done" then none else some (GoError.errInvalidResponse resp),
        { sent := sent ++ [cmd ++ sp :: f.Name], writeErr := none, incoming := rest }) := by
  have e1 : lit " " = [sp] := by decide
  by_cases h : resp = lit "Done" <;>
    simp [answering, Filter.sendCommand, Connection.SendAndReceive, Connection.Send, Connection.Read,
      RespDone, e1, h]

/-- C14: the filter administration operations accept only `Done`. For every
filter, Drop, Close, Clear and Filter.Flush send exactly `drop <Name>`,
`close <Name>`, `clear <Name>` and `flush <Name>`, and once the line is read
they return nil exactly when it is `Done`, and the invalid-response error
otherwise. -/
theorem admin_commands_accept_only_Done (f : Filter) (sent : List GoString) (resp : GoString)
    (rest : List (Except ConnError GoString)) :
    (f.Drop (answering sent resp rest) =
      (if resp = lit "Done" then none else some (GoError.errInvalidResponse resp),
        { sent := sent ++ [lit "drop" ++ sp :: f.Name], writeErr := none, incoming := rest })) ∧
    (f.Close (answering sent resp rest) =
      (if resp = lit "Done" then none else some (GoError.errInvalidResponse resp),
        { sent := sent ++ [lit "close" ++ sp :: f.Name], writeErr := none, incoming := rest })) ∧
    (f.Clear (answering sent resp rest) =
      (if resp = lit "Done" then none else some (GoError.errInvalidResponse resp),
        { sent := sent ++ [lit "clear" ++ sp :: f.Name], writeErr := none, incoming := rest })) ∧
    (f.Flush (answering sent resp rest) =
      (if resp = lit "Done" then none else some (GoError.errInvalidResponse resp),
        { sent := sent ++ [lit "flush" ++ sp :: f.Name], writeErr := none, incoming := rest })) ∧
    ((f.Drop (answering sent resp rest)).1 = none ↔
      resp = lit "Done") ∧
    ((f.Close (answering sent resp rest)).1 = none ↔
      resp = lit "Done") ∧
    ((f.Clear (answering sent resp rest)).1 = none ↔
      resp = lit "Done") ∧
    ((f.Flush (answering sent resp rest)).1 = none ↔
      resp = lit "Done") := by
  simp only [Filter.Drop, Filter.Close, Filter.Clear, Filter.Flush, sendCommand_ok,
    FilterDropCmd, FilterCloseCmd, FilterClearCmd, FlushCmd, true_and]
  by_cases h : resp = lit "Done" <;> simp [h]

theorem GetFilter_fields (ParseFloat : GoString → Except NumError Float64) (c : Client)
    (name : GoString) (conn : Connection) (f : Filter) (e : Option GoError)
    (conn2 : Connection)
    (h : Client.GetFilter ParseFloat c name conn = Outcome.ret ((some f, e), conn2)) :
    f.Name = name ∧ f.HashKeys = false ∧ f.Conn = c.Conn := by
  unfold Client.GetFilter at h
  simp only at h
  split at h
  · simp at h
  · split at h
    · simp at h
    · split at h
      · simp at h
      · split at h
        · simp at h
        · split at h
          · simp at h
          · split at h
            · simp at h
            · split at h
              · simp at h
              · split at h
                · simp at h
                · simp only [Outcome.ret.injEq, Prod.mk.injEq, Option.some.injEq] at h
                  obtain ⟨⟨hf, _⟩, _⟩ := h
                  subst hf
                  exact ⟨rfl, rfl, rfl⟩

/-- C15, the code at the failing input: a filter GetFilter returns has the
requested name and HashKeys false, whatever the client holds. On a client with
HashKeys set, GetFilter returns the filter `foo` with HashKeys false,
while CreateFilter on the same client sets HashKeys to true; for the key `a`
the fetched filter sends `a` and the created one the hexadecimal token. -/
theorem GetFilter_drops_HashKeys :
    (∀ (ParseFloat : GoString → Except NumError Float64) (c : Client) (name : GoString)
        (conn conn2 : Connection) (f : Filter) (e : Option GoError),
      Client.GetFilter ParseFloat c name conn = Outcome.ret ((some f, e), conn2) →
        f.Name = name ∧ f.HashKeys = false) ∧
    ((Client.GetFilter parseFloatStub (mkClient true) (lit "foo")
        (freshConn infoBlock)).value?.map (fun r => r.1)) =
      some (some ⟨lit "foo", some 1, false, 100, ⟨0x3F847AE147AE147B⟩, true⟩, none) ∧
    (Client.CreateFilter (fun _ => lit "0.01") (mkClient true) (mkFilter (lit "foo") false)
        (freshConn [lit "Done"])).2.1.HashKeys = true ∧
    Filter.getKey ⟨lit "foo", some 1, false, 100, ⟨0x3F847AE147AE147B⟩, true⟩ (lit "a") =
      lit "a" ∧
    Filter.getKey (Client.CreateFilter (fun _ => lit "0.01") (mkClient true)
        (mkFilter (lit "foo") false) (freshConn [lit "Done"])).2.1 (lit "a") =
      lit "61da39a3ee5e6b4b0d3255bfef95601890afd80709" := by
  refine ⟨fun ParseFloat c name conn conn2 f e h =>
      ⟨(GetFilter_fields ParseFloat c name conn f e conn2 h).1,
       (GetFilter_fields ParseFloat c name conn f e conn2 h).2.1⟩,
    by decide, by decide, by decide, ?_⟩
  have h : (Client.CreateFilter (fun _ => lit "0.01") (mkClient true)
      (mkFilter (lit "foo") false) (freshConn [lit "Done"])).2.1 = mkFilter (lit "foo") true := by
    decide
  rw [h, getKey_hashed _ _ rfl, sha1_empty]
  decide

/-! ## Lemmas on joining and splitting -/

theorem joinSpace_cons (t : GoString) (ts : List GoString) :
    joinSpace (t :: ts) = t ++ (ts.map (fun u => sp :: u)).flatten := by
  induction ts generalizing t with
  | nil => simp [joinSpace]
  | cons u us ih => simp [joinSpace, ih u]

theorem groupCmd_foldl (f : Filter) (keys : List GoString) (acc : GoString) :
    keys.foldl (fun cmd key => cmd ++ lit " " ++ f.getKey key) acc =
      acc ++ ((keys.map f.getKey).map (fun u => sp :: u)).flatten := by
  have e1 : lit " " = [sp] := by decide
  induction keys generalizing acc with
  | nil => simp
  | cons k ks ih =>
    rw [List.foldl_cons, ih]
    simp [e1]

theorem groupCmd_eq_joinSpace (f : Filter) (kind : GoString) (keys : List GoString) :
    groupCmd f kind keys = joinSpace (kind :: f.Name :: keys.map f.getKey) := by
  have e1 : lit " " = [sp] := by decide
  rw [groupCmd, groupCmd_foldl, joinSpace_cons]
  simp [e1]

theorem Index_append_sep (t r : GoString) (sep : Byte) (h : sep ∉ t) :
    Index (t ++ sep :: r) sep = some t.length := by
  induction t with
  | nil => simp [Index]
  | cons b u ih =>
    have hb : b ≠ sep := fun e => h (by rw [e]; exact List.mem_cons_self _ _)
    have hu : sep ∉ u := fun e => h (List.mem_cons_of_mem _ e)
    simp [Index, hb, ih hu]

theorem genSplit_joined (n : Nat) (t : GoString) (ts : List GoString)
    (hn : ts.length ≤ n) (ht : sp ∉ t) (hts : ∀ u ∈ ts, sp ∉ u) :
    genSplit n (t ++ (ts.map (fun u => sp :: u)).flatten) sp = t :: ts := by
  induction ts generalizing n t with
  | nil =>
    cases n with
    | zero => simp [genSplit]
    | succ n => simp [genSplit, Index_of_not_mem t sp ht]
  | cons u us ih =>
    cases n with
    | zero => simp at hn
    | succ n =>
      have hu : sp ∉ u := hts u (List.mem_cons_self _ _)
      have hus : ∀ v ∈ us, sp ∉ v := fun v hv => hts v (List.mem_cons_of_mem _ hv)
      have hidx : Index (t ++ sp :: (u ++ (us.map (fun u => sp :: u)).flatten)) sp =
          some t.length := Index_append_sep t _ sp ht
      have hrec := ih n u (by simpa using hn) hu hus
      simp only [List.map_cons, List.flatten_cons, List.cons_append, genSplit, hidx]
      simp [hrec]

theorem Count_joined (t : GoString) (ts : List GoString)
    (ht : sp ∉ t) (hts : ∀ u ∈ ts, sp ∉ u) :
    Count (t ++ (ts.map (fun u => sp :: u)).flatten) sp = ts.length := by
  induction ts with
  | nil => simpa [Count] using List.count_eq_zero_of_not_mem ht
  | cons u us ih =>
    have hu : sp ∉ u := hts u (List.mem_cons_self _ _)
    have hus : ∀ v ∈ us, sp ∉ v := fun v hv => hts v (List.mem_cons_of_mem _ hv)
    have h1 := ih hus
    simp only [Count, List.count_append] at h1 ⊢
    simp only [List.map_cons, List.flatten_cons, List.cons_append, List.count_append,
      List.count_cons_self, List.count_eq_zero_of_not_mem hu, List.length_cons]
    omega

theorem Split_joinSpace (t : GoString) (ts : List GoString)
    (ht : sp ∉ t) (hts : ∀ u ∈ ts, sp ∉ u) :
    Split (joinSpace (t :: ts)) sp = t :: ts := by
  rw [Split_eq_genSplit, joinSpace_cons, Count_joined t ts ht hts]
  exact genSplit_joined _ t ts (Nat.le_refl _) ht hts

theorem groupCommand_sent (f : Filter) (kind : GoString) (keys : List GoString)
    (conn : Connection) :
    (f.groupCommand kind keys conn).2.sent = conn.sent ++ [groupCmd f kind keys] := by
  simp only [Filter.groupCommand, Connection.SendAndReceive, Connection.Send, Connection.Read]
  cases conn.writeErr with
  | some e => simp
  | none =>
    cases conn.incoming with
    | nil => simp
    | cons r rest =>
      cases r with
      | error e => simp
      | ok resp =>
        by_cases h : (HasPrefix resp FilterYes || HasPrefix resp FilterNo) = true <;> simp [h]

/-- C16: group commands are rendered with single spaces in input order. For
every filter and key list, the command Bulk and Multi hand to the connection is
the kind, the name and the wire token of each key in input order, separated by
exactly one space with no leading or trailing space (and so is the command of
groupCommand for every kind); whenever the name and the tokens contain no
space, splitting that command on the space returns exactly the kind, the name
and the tokens. -/
theorem group_command_rendering (f : Filter) (keys : List GoString) (conn : Connection) :
    (f.Bulk keys conn).2.sent =
      conn.sent ++ [joinSpace (lit "bulk" :: f.Name :: keys.map f.getKey)] ∧
    (f.Multi keys conn).2.sent =
      conn.sent ++ [joinSpace (lit "multi" :: f.Name :: keys.map f.getKey)] ∧
    (∀ kind, (f.groupCommand kind keys conn).2.sent =
      conn.sent ++ [joinSpace (kind :: f.Name :: keys.map f.getKey)]) ∧
    (sp ∉ f.Name → (∀ k ∈ keys, sp ∉ f.getKey k) →
      Split (joinSpace (lit "bulk" :: f.Name :: keys.map f.getKey)) sp =
        lit "bulk" :: f.Name :: keys.map f.getKey ∧
      Split (joinSpace (lit "multi" :: f.Name :: keys.map f.getKey)) sp =
        lit "multi" :: f.Name :: keys.map f.getKey ∧
      ∀ kind, sp ∉ kind →
        Split (joinSpace (kind :: f.Name :: keys.map f.getKey)) sp =
          kind :: f.Name :: keys.map f.getKey) := by
  have hall : ∀ kind, (f.groupCommand kind keys conn).2.sent =
      conn.sent ++ [joinSpace (kind :: f.Name :: keys.map f.getKey)] := fun kind => by
    rw [groupCommand_sent, groupCmd_eq_joinSpace]
  refine ⟨hall FilterBulkCmd, hall FilterMultiCmd, hall, fun hn hk => ?_⟩
  have hts : ∀ u ∈ f.Name :: keys.map f.getKey, sp ∉ u := by
    intro u hu
    rcases List.mem_cons.mp hu with e | e
    · rw [e]; exact hn
    · obtain ⟨k, hk1, hk2⟩ := List.mem_map.mp e
      rw [← hk2]; exact hk k hk1
  exact ⟨Split_joinSpace _ _ (by decide) hts, Split_joinSpace _ _ (by decide) hts,
    fun kind hkind => Split_joinSpace _ _ hkind hts⟩

/-- Witness of C16: the filter `foo` and the keys `a`, `b`. -/
theorem group_command_rendering_witness :
    (Filter.Bulk (mkFilter (lit "foo") false) [lit "a", lit "b"] (freshConn [])).2.sent =
      [lit "bulk foo a b"] ∧
    Split (lit "bulk foo a b") sp = [lit "bulk", lit "foo", lit "a", lit "b"] :=
  ⟨((group_command_rendering (mkFilter (lit "foo") false) [lit "a", lit "b"]
      (freshConn [])).1).trans (by decide),
   (((group_command_rendering (mkFilter (lit "foo") false) [lit "a", lit "b"]
      (freshConn [])).2.2.2 (by decide) (by decide)).1)⟩

/-! ## Lemmas on the wire token -/

theorem sprintfHex_append (s t : GoString) :
    sprintfHex (s ++ t) = sprintfHex s ++ sprintfHex t := by
  induction s with
  | nil => rfl
  | cons b u ih => simp [sprintfHex, ih]

theorem sprintfHex_sha1_empty :
    sprintfHex (sha1 []) = lit "da39a3ee5e6b4b0d3255bfef95601890afd80709" := by
  rw [sha1_empty]
  decide

theorem hexDigit_inj : ∀ a, a < 16 → ∀ b, b < 16 → hexDigit a = hexDigit b → a = b := by
  decide

theorem sprintfHex_inj (s t : GoString) (h : sprintfHex s = sprintfHex t) : s = t := by
  induction s generalizing t with
  | nil =>
    cases t with
    | nil => rfl
    | cons c v => simp [sprintfHex] at h
  | cons b u ih =>
    cases t with
    | nil => simp [sprintfHex] at h
    | cons c v =>
      simp only [sprintfHex, List.cons.injEq] at h
      obtain ⟨h1, h2, h3⟩ := h
      have hb := b.isLt
      have hc := c.isLt
      have e1 := hexDigit_inj _ (by omega) _ (by omega) h1
      have e2 := hexDigit_inj _ (Nat.mod_lt _ (by decide)) _ (Nat.mod_lt _ (by decide)) h2
      have hbc : b = c := Fin.ext (by omega)
      rw [hbc, ih v h3]

/-- C17: the key's content is not digested. With HashKeys enabled, for every
key the wire token is the lowercase hexadecimal encoding of the key's bytes
followed by one fixed 40-character suffix, the hexadecimal SHA-1 digest of the
empty input, and the token's length is 2 * len(key) + 40. -/
theorem getKey_hashed_is_hex_key_plus_fixed_suffix (f : Filter) (key : GoString)
    (h : f.HashKeys = true) :
    f.getKey key = sprintfHex key ++ lit "da39a3ee5e6b4b0d3255bfef95601890afd80709" ∧
    lit "da39a3ee5e6b4b0d3255bfef95601890afd80709" = sprintfHex (sha1 []) ∧
    (lit "da39a3ee5e6b4b0d3255bfef95601890afd80709").length = 40 ∧
    (f.getKey key).length = 2 * key.length + 40 := by
  have hk : f.getKey key = sprintfHex key ++ lit "da39a3ee5e6b4b0d3255bfef95601890afd80709" := by
    rw [getKey_hashed f key h, sprintfHex_append, sprintfHex_sha1_empty]
  have hl : (lit "da39a3ee5e6b4b0d3255bfef95601890afd80709").length = 40 := by decide
  refine ⟨hk, sprintfHex_sha1_empty.symm, hl, ?_⟩
  rw [hk, List.length_append, length_sprintfHex, hl]

/-- Witness of C17: the keys `a` and `ab` share the suffix. -/
theorem getKey_hashed_is_hex_key_plus_fixed_suffix_witness :
    (mkFilter (lit "foo") true).getKey (lit "ab") =
      lit "6162" ++ lit "da39a3ee5e6b4b0d3255bfef95601890afd80709" ∧
    ((mkFilter (lit "foo") true).getKey (lit "ab")).length = 2 * (lit "ab").length + 40 :=
  ⟨((getKey_hashed_is_hex_key_plus_fixed_suffix (mkFilter (lit "foo") true) (lit "ab")
      rfl).1).trans (by decide),
   (getKey_hashed_is_hex_key_plus_fixed_suffix (mkFilter (lit "foo") true) (lit "ab")
      rfl).2.2.2⟩

/-- C18: the wire token never makes two keys collide. For every filter,
HashKeys enabled or not, two different key strings yield two different wire
tokens. -/
theorem getKey_injective (f : Filter) (k1 k2 : GoString) (h : k1 ≠ k2) :
    f.getKey k1 ≠ f.getKey k2 := by
  intro e
  apply h
  cases hh : f.HashKeys with
  | false => simpa [Filter.getKey, hh] using e
  | true =>
    rw [getKey_hashed f k1 hh, getKey_hashed f k2 hh] at e
    exact List.append_cancel_right (sprintfHex_inj _ _ e)

/-- Witness of C18: the keys `a` and `b`, with HashKeys enabled. -/
theorem getKey_injective_witness :
    lit "a" ≠ lit "b" ∧
    (mkFilter (lit "foo") true).getKey (lit "a") ≠ (mkFilter (lit "foo") true).getKey (lit "b") :=
  ⟨by decide, getKey_injective (mkFilter (lit "foo") true) (lit "a") (lit "b") (by decide)⟩

/-- C19: CreateFilter changes the filter only on success. Whenever it returns
an error (invalid arguments, send error, read error, a response other than
`Done`/`Exists`) the filter is left as it was; whenever it returns nil, Conn
and HashKeys are the client's and Name, Capacity, Prob and InMemory are
unchanged. -/
theorem CreateFilter_frame (FormatFloat : Float64 → GoString) (c : Client) (f : Filter)
    (conn : Connection) :
    ((Client.CreateFilter FormatFloat c f conn).1 ≠ none →
      (Client.CreateFilter FormatFloat c f conn).2.1 = f) ∧
    ((Client.CreateFilter FormatFloat c f conn).1 = none →
      (Client.CreateFilter FormatFloat c f conn).2.1.Conn = c.Conn ∧
      (Client.CreateFilter FormatFloat c f conn).2.1.HashKeys = c.HashKeys ∧
      (Client.CreateFilter FormatFloat c f conn).2.1.Name = f.Name ∧
      (Client.CreateFilter FormatFloat c f conn).2.1.Capacity = f.Capacity ∧
      (Client.CreateFilter FormatFloat c f conn).2.1.Prob = f.Prob ∧
      (Client.CreateFilter FormatFloat c f conn).2.1.InMemory = f.InMemory) := by
  unfold Client.CreateFilter
  by_cases hv : (f.Prob.gtZero && decide (f.Capacity < 1)) = true
  · simp [hv]
  · simp only [hv, Bool.false_eq_true, if_false, Connection.Send, Connection.Read]
    cases conn.writeErr with
    | some e => simp
    | none =>
      cases conn.incoming with
      | nil => simp
      | cons r rest =>
        cases r with
        | error e => simp
        | ok resp =>
          by_cases h : resp ≠ RespDone ∧ resp ≠ RespExists
          · simp [h]
          · simp [h]

/-- Witness of C19: a `Done` response binds the filter to the client, a
`Filter does not exist` response leaves it as it was. -/
theorem CreateFilter_frame_witness :
    (Client.CreateFilter (fun _ => lit "0") (mkClient true) (mkFilter (lit "foo") false)
        (freshConn [lit "Done"])).2.1.HashKeys = true ∧
    (Client.CreateFilter (fun _ => lit "0") (mkClient true) (mkFilter (lit "foo") false)
        (freshConn [lit "Filter does not exist"])).2.1 = mkFilter (lit "foo") false :=
  ⟨((CreateFilter_frame (fun _ => lit "0") (mkClient true) (mkFilter (lit "foo") false)
      (freshConn [lit "Done"])).2 (by decide)).2.1,
   (CreateFilter_frame (fun _ => lit "0") (mkClient true) (mkFilter (lit "foo") false)
      (freshConn [lit "Filter does not exist"])).1 (by decide)⟩

end Bloomd
